import Mathlib

/-!
Verification development for the event-driven backtest system.

Shallow embedding of the repository's core: market rules
(`market_rules.py`), the instrument registry (`core/instrument.py`),
the data handler (`data_handler.py`), the execution handler
(`src/execution/execution_handler.py`), the portfolio ledger
(`src/portfolio/portfolio.py`) and the data-loader gap discovery
(`data_loader.py`).

Conventions of the embedding:
* Prices, commissions and cash are `ℚ` (the source uses floats; the
  spec, section 9, directs implementers to exact decimals).
* Quantities are `ℤ`, timestamps are wall-clock records (weekday and
  second-of-day) since only the trading-hours checks inspect them.
* Python dicts become functions into `Option`; dict assignment is
  `Function.update`.
* `math.sqrt` (used only by volume-based slippage) has no exact `ℚ`
  counterpart, so the slippage function takes the square-root function
  as an explicit parameter `msqrt`; theorems either quantify over it or
  instantiate it at inputs where the square-root branch is not taken.
* Python error paths that raise (missing registry entry, missing bar)
  are modelled as the no-operation / `none` result; no theorem below
  relies on those paths.
-/

/-- Order direction, the `'BUY'` / `'SELL'` strings of the source. -/
inductive Direction where
  | BUY
  | SELL
deriving DecidableEq, Repr

/-- Signal type, the `'LONG'` / `'SHORT'` / `'EXIT'` strings of the source. -/
inductive SignalType where
  | LONG
  | SHORT
  | EXIT
deriving DecidableEq, Repr

/-- Wall-clock instant as seen by the trading-hours checks: weekday
(0 = Monday, as in Python `datetime.weekday()`) and second of the day.
The pytz localization of `is_trading_time` is abstracted: the record is
already the wall clock in the market rule's own timezone. -/
structure WallClock where
  weekday : ℕ
  sod : ℕ
deriving DecidableEq, Repr

instance : Inhabited WallClock := ⟨⟨0, 0⟩⟩

/-- One OHLCV bar (`data_loader.py` row). Only the fields the embedded
components read are kept; `open` is optional because invalidated bars
carry `NULL` prices and the execution handler uses
`latest_bar.get('open', latest_bar['close'])`. -/
structure Bar where
  ticker : String := ""
  timestamp : ℤ := 0
  openP : Option ℚ := none
  high : ℚ := 0
  low : ℚ := 0
  close : ℚ := 0
  volume : ℚ := 0
deriving DecidableEq, Repr

instance : Inhabited Bar := ⟨{}⟩

/-- `core/event.py` `SignalEvent` (fields taken from the constructor calls). -/
structure SignalEvent where
  symbol : String
  datetime : WallClock
  signal_type : SignalType
  strength : ℚ
deriving DecidableEq, Repr

/-- `core/event.py` `OrderEvent`. -/
structure OrderEvent where
  symbol : String
  quantity : ℤ
  direction : Direction
  datetime : WallClock
deriving DecidableEq, Repr

/-- `core/event.py` `FillEvent`. -/
structure FillEvent where
  symbol : String
  exchange : String
  quantity : ℤ
  direction : Direction
  fill_price : ℚ
  datetime : WallClock
  rejected : Bool
  commission : ℚ
deriving DecidableEq, Repr

/-- Python `int(x)` on a float: truncation toward zero. -/
def pyInt (q : ℚ) : ℤ :=
  if 0 ≤ q then ⌊q⌋ else ⌈q⌉

/-- Python `round(x)`: round half to even (banker's rounding). -/
def pyRound (x : ℚ) : ℤ :=
  let f : ℤ := ⌊x⌋
  let r : ℚ := x - f
  if r < 1/2 then f
  else if 1/2 < r then f + 1
  else if Even f then f else f + 1

/-- Configuration carried by a `MarketRules` instance
(`market_rules.py`, `MarketRules.__init__` plus the subclass
overrides).  Behaviour methods dispatch on `market_name`, which
uniquely identifies the subclass. -/
structure MarketRule where
  market_name : String := "GENERIC"
  commission_rate : ℚ := 0
  min_commission : ℚ := 0
  stamp_duty : ℚ := 0
  transfer_fee : ℚ := 0
  lot_size : ℤ := 1
  price_tick : ℚ := 1/100
  allow_short : Bool := true
  settlement_days : ℕ := 0
  slippage_model : String := "volume_based"
  fixed_slippage_bps : ℚ := 0
  volume_slippage_factor : ℚ := 1/10
deriving DecidableEq, Repr

/-- `ChinaAShareRules.__init__`. -/
def chinaAShareRules : MarketRule :=
  { market_name := "CHINA_A"
    commission_rate := 3/10000
    min_commission := 5
    stamp_duty := 1/1000
    transfer_fee := 2/100000
    lot_size := 100
    price_tick := 1/100
    allow_short := false
    settlement_days := 1
    slippage_model := "volume_based"
    volume_slippage_factor := 15/100 }

/-- `USStockRules.__init__`. -/
def usStockRules : MarketRule :=
  { market_name := "US_STOCK"
    commission_rate := 0
    min_commission := 0
    stamp_duty := 0
    transfer_fee := 0
    lot_size := 1
    price_tick := 1/100
    allow_short := true
    settlement_days := 2
    slippage_model := "volume_based"
    volume_slippage_factor := 5/100 }

/-- `HKStockRules.__init__`. -/
def hkStockRules : MarketRule :=
  { market_name := "HK_STOCK"
    commission_rate := 25/10000
    min_commission := 100
    stamp_duty := 13/10000
    transfer_fee := 2/100000
    lot_size := 100
    price_tick := 1/100
    allow_short := true
    settlement_days := 2
    slippage_model := "volume_based"
    volume_slippage_factor := 10/100 }

/-- `CryptoRules.__init__`. -/
def cryptoRules : MarketRule :=
  { market_name := "CRYPTO"
    commission_rate := 1/1000
    min_commission := 0
    stamp_duty := 0
    transfer_fee := 0
    lot_size := 1
    price_tick := 1/100
    allow_short := true
    settlement_days := 0
    slippage_model := "volume_based"
    volume_slippage_factor := 20/100 }

/-- `MarketRules.normalize_quantity`: `(quantity // lot_size) * lot_size`
(Python floor division). -/
def normalizeQuantity (rule : MarketRule) (quantity : ℤ) : ℤ :=
  (Int.fdiv quantity rule.lot_size) * rule.lot_size

/-- `MarketRules.normalize_price`: `round(price / tick) * tick`. -/
def normalizePrice (rule : MarketRule) (price : ℚ) : ℚ :=
  (pyRound (price / rule.price_tick) : ℚ) * rule.price_tick

/-- `is_trading_time`, dispatched on the subclass.  Session bounds are
the `time(...)` constants of each `__init__`, in seconds of the day;
crypto trades around the clock. -/
def isTradingTime (rule : MarketRule) (dt : WallClock) : Bool :=
  if rule.market_name = "CHINA_A" then
    if dt.weekday ≥ 5 then false
    else ((34200 ≤ dt.sod ∧ dt.sod ≤ 41400) ∨ (46800 ≤ dt.sod ∧ dt.sod ≤ 54000) : Bool)
  else if rule.market_name = "US_STOCK" then
    if dt.weekday ≥ 5 then false
    else (34200 ≤ dt.sod ∧ dt.sod ≤ 57600 : Bool)
  else if rule.market_name = "HK_STOCK" then
    if dt.weekday ≥ 5 then false
    else ((34200 ≤ dt.sod ∧ dt.sod ≤ 43200) ∨ (46800 ≤ dt.sod ∧ dt.sod ≤ 57600) : Bool)
  else
    true

/-- `validate_order`, dispatched on the subclass.  Note the China A
variant returns ok immediately for a SELL (its first branch), so its
lot-size and trading-hours checks run only for BUY orders. -/
def validateOrder (rule : MarketRule) (symbol : String) (quantity : ℤ) (price : ℚ)
    (direction : Direction) (current_time : WallClock) : Bool × String :=
  if rule.market_name = "CHINA_A" then
    if direction = Direction.SELL ∧ rule.allow_short = false then (true, "")
    else if quantity % rule.lot_size ≠ 0 then
      (false, "Quantity must be multiple of 100 shares")
    else if ¬ isTradingTime rule current_time then (false, "Outside trading hours")
    else (true, "")
  else if rule.market_name = "US_STOCK" then
    if ¬ isTradingTime rule current_time then (false, "Outside trading hours")
    else (true, "")
  else if rule.market_name = "HK_STOCK" then
    if quantity % rule.lot_size ≠ 0 then
      (false, "Quantity must be multiple of 100 shares")
    else if ¬ isTradingTime rule current_time then (false, "Outside trading hours")
    else (true, "")
  else
    (true, "")

/-- Python `str.startswith`, evaluated on the underlying character
list (Lean's `String.startsWith` does not reduce in the kernel). -/
def pyStartsWith (s pre : String) : Bool :=
  pre.data.isPrefixOf s.data

/-- `apply_price_limit`, dispatched on the subclass.  Only China A
clamps; the limit is 0.05 for `ST`/`*ST` prefixes, 0.20 for `688`/`300`
prefixes, 0.10 otherwise. -/
def applyPriceLimit (rule : MarketRule) (symbol : String) (price prev_close : ℚ)
    (direction : Direction) : ℚ :=
  if rule.market_name = "CHINA_A" then
    if prev_close ≤ 0 then price
    else
      let limit_pct : ℚ :=
        if pyStartsWith symbol "ST" ∨ pyStartsWith symbol "*ST" then 5/100
        else if pyStartsWith symbol "688" ∨ pyStartsWith symbol "300" then 20/100
        else 10/100
      let max_price := prev_close * (1 + limit_pct)
      let min_price := prev_close * (1 - limit_pct)
      max min_price (min max_price price)
  else price

/-- `MarketRules.calculate_slippage` (shared base-class method).
`msqrt` stands for Python's `math.sqrt`, which `ℚ` cannot host exactly. -/
def calculateSlippage (rule : MarketRule) (msqrt : ℚ → ℚ) (quantity : ℤ) (price : ℚ)
    (direction : Direction) (bar_volume bar_high bar_low : ℚ) : ℚ :=
  if rule.slippage_model = "none" then price
  else if rule.slippage_model = "fixed" then
    let slippage_pct := rule.fixed_slippage_bps / 10000
    if direction = Direction.BUY then price * (1 + slippage_pct)
    else price * (1 - slippage_pct)
  else if rule.slippage_model = "volume_based" then
    let slippage_pct : ℚ :=
      if bar_volume ≤ 0 then 1/1000
      else
        let order_volume_pct := if bar_volume > 0 then (quantity * price) / (bar_volume * price) else 0
        let spread_pct := if price > 0 then (bar_high - bar_low) / price else 0
        min (rule.volume_slippage_factor * msqrt order_volume_pct * spread_pct) (1/100)
    if direction = Direction.BUY then price * (1 + slippage_pct)
    else price * (1 - slippage_pct)
  else if rule.slippage_model = "spread_based" then
    let spread_pct := if price > 0 then (bar_high - bar_low) / price else 0
    let slippage_pct := spread_pct * (1/2)
    if direction = Direction.BUY then price * (1 + slippage_pct)
    else price * (1 - slippage_pct)
  else price

/-- `calculate_commission`, dispatched on the subclass. -/
def calculateCommission (rule : MarketRule) (symbol : String) (quantity : ℤ) (price : ℚ)
    (direction : Direction) : ℚ :=
  let trade_value := (quantity : ℚ) * price
  if rule.market_name = "CHINA_A" then
    let commission := max (trade_value * rule.commission_rate) rule.min_commission
    let stamp := if direction = Direction.SELL then trade_value * rule.stamp_duty else 0
    commission + stamp + trade_value * rule.transfer_fee
  else if rule.market_name = "US_STOCK" then
    max (trade_value * rule.commission_rate) rule.min_commission
  else if rule.market_name = "HK_STOCK" then
    let commission := max (trade_value * rule.commission_rate) rule.min_commission
    commission + trade_value * rule.stamp_duty + trade_value * rule.transfer_fee
      + trade_value * (5/100000)
  else
    trade_value * rule.commission_rate

/-- Modelled from the spec: `MarketRule.calculate_margin` lives in the
repository's `market_rule.py` base module, which is absent from the
sources (only its call sites in `portfolio/portfolio.py` are present).
Spec section 4.3: for cash equities the margin equals the notional
`quantity * price`; the futures variant multiplies by contract
multiplier and margin rate.  The four rule variants shipped in
`market_rules.py` are all cash-equity or crypto markets, so the margin
here is the notional. -/
def calculateMargin (rule : MarketRule) (symbol : String) (quantity : ℤ) (price : ℚ) : ℚ :=
  (quantity : ℚ) * price

/-- Instrument kind: `Stock` never expires, `Future` carries an expiry
timestamp (`instruments/stock.py`, `instruments/future.py`). -/
inductive InstrumentKind where
  | stock
  | future (expiry_date : ℤ)
deriving DecidableEq, Repr

/-- `core/instrument.py` `Instrument` (abstract base) with the subclass
payload in `kind`.  `Stock` fixes `contract_multiplier = 1`. -/
structure Instrument where
  symbol : String
  market_rule : MarketRule
  contract_multiplier : ℤ
  currency : String
  kind : InstrumentKind
deriving DecidableEq, Repr

/-- `instruments/stock.py` `Stock.__init__`. -/
def mkStock (symbol : String) (rule : MarketRule) (currency : String) : Instrument :=
  { symbol := symbol, market_rule := rule, contract_multiplier := 1,
    currency := currency, kind := InstrumentKind.stock }

/-- `Instrument.is_expired` (`Stock` always false, `Future` compares to
its expiry date). -/
def isExpired (i : Instrument) (current_time : ℤ) : Bool :=
  match i.kind with
  | InstrumentKind.stock => false
  | InstrumentKind.future e => current_time ≥ e

/-- `InstrumentRegistry.instrument_map`: a Python dict, modelled as a
function into `Option`. -/
def Registry : Type := String → Option Instrument

/-- `InstrumentRegistry()` with an empty map. -/
def emptyRegistry : Registry := fun _ => none

/-- `InstrumentRegistry.register`: dict assignment keyed by the
instrument's symbol. -/
def registerInstrument (reg : Registry) (instrument : Instrument) : Registry :=
  Function.update reg instrument.symbol (some instrument)

/-- `InstrumentRegistry.get`: the stored instrument, `None` when the
symbol was never registered. -/
def registryGet (reg : Registry) (symbol : String) : Option Instrument :=
  reg symbol

/-- State of `data_handler.py` `DataHandler`: the immutable per-symbol
buffers, the cursor `_bar_index` and the visible history
`_latest_symbols_data` (dict keyed by the configured symbols). -/
structure DataHandlerState where
  symbols : List String
  symbolsData : String → List Bar
  barIndex : ℕ
  latestData : String → List Bar

/-- A fresh `DataHandler` over sorted per-symbol buffers: cursor 0,
empty visible history. -/
def initDataHandler (symbols : List String) (symbolsData : String → List Bar) :
    DataHandlerState :=
  { symbols := symbols, symbolsData := symbolsData, barIndex := 0,
    latestData := fun _ => [] }

/-- `DataHandler.update_bars`: append the bar at the cursor for every
symbol that has one, advance the cursor iff any did, return whether any
did. -/
def updateBars (s : DataHandlerState) : DataHandlerState × Bool :=
  let hasData := s.symbols.any (fun sym => decide (s.barIndex < (s.symbolsData sym).length))
  let newLatest : String → List Bar := fun sym =>
    if sym ∈ s.symbols ∧ s.barIndex < (s.symbolsData sym).length then
      s.latestData sym ++ [(s.symbolsData sym).getD s.barIndex default]
    else s.latestData sym
  ({ s with latestData := newLatest,
            barIndex := if hasData then s.barIndex + 1 else s.barIndex }, hasData)

/-- `DataHandler.get_latest_bar`: the last visible bar, but only when
the symbol's visible count equals the cursor (i.e. the symbol received
a bar at the most recent advance). -/
def getLatestBar (s : DataHandlerState) (symbol : String) : Option Bar :=
  if symbol ∉ s.symbols then none
  else if (s.latestData symbol).length = 0 then none
  else if (s.latestData symbol).length = s.barIndex then (s.latestData symbol).getLast?
  else none

/-- `DataHandler.get_latest_bars`: Python `lst[-num_bars:]` (the whole
list when `num_bars = 0`), again gated on the visible count equalling
the cursor. -/
def getLatestBars (s : DataHandlerState) (symbol : String) (num_bars : ℕ) : List Bar :=
  if symbol ∉ s.symbols then []
  else if (s.latestData symbol).length < num_bars then []
  else if (s.latestData symbol).length = s.barIndex then
    if num_bars = 0 then s.latestData symbol
    else (s.latestData symbol).drop ((s.latestData symbol).length - num_bars)
  else []

/-- The spec's strict latest-N semantics, written from the spec's words
for comparison with `getLatestBars`: "returns the last N visible bars
or an empty slice if fewer than N are visible" (spec section 4.2). -/
def specLatestN (s : DataHandlerState) (symbol : String) (num_bars : ℕ) : List Bar :=
  if num_bars ≤ (s.latestData symbol).length then
    (s.latestData symbol).drop ((s.latestData symbol).length - num_bars)
  else []

/-- One holding record of `Portfolio.current_holdings`; fresh records
are `{'quantity': 0, 'avg_cost': 0, 'available': 0}` and
`last_settle_price` is set on BUY fills. -/
structure Holding where
  quantity : ℤ := 0
  avg_cost : ℚ := 0
  available : ℤ := 0
  last_settle_price : Option ℚ := none
deriving DecidableEq, Repr

instance : Inhabited Holding := ⟨{}⟩

/-- One entry of `Portfolio.pending_settlements`. -/
structure PendingSettlement where
  symbol : String
  quantity : ℤ
  buy_time : WallClock
  settlement_days : ℕ
deriving DecidableEq, Repr

/-- One entry of `Portfolio.positions` (the trade history). -/
structure PositionRecord where
  symbol : String
  fill_price : ℚ
  quantity : ℤ
  commission : ℚ
  direction : Direction
  time : WallClock
  realized_pnl : ℚ
deriving DecidableEq, Repr

/-- State of `portfolio/portfolio.py` `Portfolio` (the registry-based
version); `current_holdings` and `margin_used` are Python dicts,
modelled as functions into `Option`. -/
structure PortfolioState where
  initial_capital : ℚ
  current_holdings : String → Option Holding
  current_cash : ℚ
  positions : List PositionRecord
  total_realized_pnl : ℚ
  pending_settlements : List PendingSettlement
  margin_used : String → Option ℚ

/-- `Portfolio.__init__`. -/
def initPortfolio (initial_capital : ℚ) : PortfolioState :=
  { initial_capital := initial_capital
    current_holdings := fun _ => none
    current_cash := initial_capital
    positions := []
    total_realized_pnl := 0
    pending_settlements := []
    margin_used := fun _ => none }

/-- Replace the holding record of one symbol. -/
def setHolding (p : PortfolioState) (symbol : String) (h : Holding) : PortfolioState :=
  { p with current_holdings := Function.update p.current_holdings symbol (some h) }

/-- `Portfolio.process_signal_event`: LONG maps to BUY, SHORT to SELL,
anything else is dropped; the requested strength is truncated and
lot-normalized; the order is dropped when the margin exceeds cash, the
quantity is zero, or — only when the symbol already has a holding
record — a T+N SELL exceeds the available quantity.  A missing latest
bar or registry entry raises in Python; both are modelled as `none`. -/
def processSignalEvent (dh : DataHandlerState) (reg : Registry) (p : PortfolioState)
    (signal_event : Option SignalEvent) : Option OrderEvent :=
  match signal_event with
  | none => none
  | some se =>
    let direction? : Option Direction :=
      match se.signal_type with
      | SignalType.LONG => some Direction.BUY
      | SignalType.SHORT => some Direction.SELL
      | SignalType.EXIT => none
    match direction? with
    | none => none
    | some direction =>
      match getLatestBar dh se.symbol, registryGet reg se.symbol with
      | some bar, some instrument =>
        let market_rule := instrument.market_rule
        let quantity := normalizeQuantity market_rule (pyInt se.strength)
        let margin := calculateMargin market_rule se.symbol quantity bar.close
        let availability_blocks : Bool :=
          match p.current_holdings se.symbol with
          | some h => decide (h.available < quantity)
          | none => false
        if margin > p.current_cash then none
        else if quantity = 0 then none
        else if direction = Direction.SELL ∧ market_rule.settlement_days > 0 ∧
            availability_blocks then none
        else some { symbol := se.symbol, quantity := quantity,
                    direction := direction, datetime := se.datetime }
      | _, _ => none

/-- `Portfolio._add_current_holding`: weighted-average update of
quantity and `avg_cost`, folding per-share commission into the added
leg (added on positive additions, subtracted on negative ones).  The
caller guarantees the holding record exists; a `quantity` of zero takes
neither branch and leaves the state unchanged, as in the source. -/
def addCurrentHolding (p : PortfolioState) (symbol : String) (price : ℚ)
    (quantity : ℤ) (commission : ℚ) : PortfolioState :=
  match p.current_holdings symbol with
  | none => p
  | some h =>
    let commission_per_share : ℚ := if quantity ≠ 0 then commission / |(quantity : ℚ)| else 0
    if quantity > 0 then
      setHolding p symbol
        { h with
          quantity := h.quantity + quantity
          avg_cost := (h.avg_cost * h.quantity + (price + commission_per_share) * quantity) /
            ((h.quantity : ℚ) + quantity) }
    else if quantity < 0 then
      setHolding p symbol
        { h with
          quantity := h.quantity + quantity
          avg_cost := (h.avg_cost * h.quantity + (price - commission_per_share) * quantity) /
            ((h.quantity : ℚ) + quantity) }
    else p

/-- `Portfolio._reduce_current_holding`: shrink the quantity toward
zero by `quantity`; `avg_cost` and `available` are untouched (the
`price` and `commission` parameters are unused in the source too). -/
def reduceCurrentHolding (p : PortfolioState) (symbol : String) (price : ℚ)
    (quantity : ℤ) (commission : ℚ) : PortfolioState :=
  match p.current_holdings symbol with
  | none => p
  | some h =>
    if h.quantity > 0 then setHolding p symbol { h with quantity := h.quantity - quantity }
    else if h.quantity < 0 then setHolding p symbol { h with quantity := h.quantity + quantity }
    else p

/-- `Portfolio._calculate_pnl`.  Both call sites pass the unsigned
fill quantity, so the `quantity < 0` branch (the long-reduction
formula) is unreachable from this repository; a zero quantity raises
`UnboundLocalError` in Python and is modelled as 0 (also unreachable
from the call sites). -/
def calculatePnl (reg : Registry) (p : PortfolioState) (symbol : String) (price : ℚ)
    (quantity : ℤ) (commission : ℚ) : ℚ :=
  match p.current_holdings symbol, registryGet reg symbol with
  | some h, some instrument =>
    let contract_multiplier := instrument.contract_multiplier
    let commission_per_share : ℚ := if quantity ≠ 0 then commission / |(quantity : ℚ)| else 0
    if quantity < 0 then
      |(quantity : ℚ)| * ((price - commission_per_share) - h.avg_cost) * contract_multiplier
    else if quantity > 0 then
      (quantity : ℚ) * (h.avg_cost - (price + commission_per_share)) * contract_multiplier
    else 0
  | _, _ => 0

/-- `Portfolio.process_fill_event`.  Rejected fills are ignored
entirely.  Otherwise: ensure a holding record, branch into
open / add / reduce / flip on the signed quantity change, then apply
the cash-and-margin flow, the T+N availability bookkeeping, accumulate
realized P&L and append the trade record.  A missing registry entry
raises in Python and is modelled as the identity. -/
def processFillEvent (reg : Registry) (p : PortfolioState) (fill_event : FillEvent) :
    PortfolioState :=
  if fill_event.rejected then p
  else
    match registryGet reg fill_event.symbol with
    | none => p
    | some instrument =>
      let fill_price := fill_event.fill_price
      let symbol := fill_event.symbol
      let quantity := fill_event.quantity
      let commission := fill_event.commission
      let market_rule := instrument.market_rule
      let p0 := setHolding p symbol ((p.current_holdings symbol).getD {})
      let current_quantity := ((p0.current_holdings symbol).getD {}).quantity
      let quantity_change : ℤ :=
        if fill_event.direction = Direction.BUY then quantity else -quantity
      let new_quantity := current_quantity + quantity_change
      let step : PortfolioState × ℚ :=
        if current_quantity = 0 then
          (addCurrentHolding p0 symbol fill_price new_quantity commission, 0)
        else if current_quantity * quantity_change > 0 then
          (addCurrentHolding p0 symbol fill_price quantity_change commission, 0)
        else if current_quantity * quantity_change < 0 ∧
            |current_quantity| > |quantity_change| then
          let pr := reduceCurrentHolding p0 symbol fill_price quantity commission
          (pr, calculatePnl reg pr symbol fill_price quantity commission)
        else if current_quantity * quantity_change < 0 ∧
            |current_quantity| ≤ |quantity_change| then
          let pr := reduceCurrentHolding p0 symbol fill_price |current_quantity| commission
          let pnl := calculatePnl reg pr symbol fill_price quantity commission
          (if new_quantity ≠ 0 then addCurrentHolding pr symbol fill_price new_quantity commission
           else pr, pnl)
        else (p0, 0)
      let p1 := step.1
      let pnl := step.2
      let margin := calculateMargin market_rule symbol quantity fill_price
      let p2 :=
        if fill_event.direction = Direction.BUY then
          let p2a :=
            { p1 with
              current_cash := p1.current_cash - (margin + commission)
              margin_used := Function.update p1.margin_used symbol
                (some ((p1.margin_used symbol).getD 0 + margin)) }
          setHolding p2a symbol
            { ((p2a.current_holdings symbol).getD {}) with last_settle_price := some fill_price }
        else
          if (p1.margin_used symbol).isSome ∧ current_quantity ≠ 0 then
            let released := ((p1.margin_used symbol).getD 0) * ((quantity : ℚ) / |(current_quantity : ℚ)|)
            { p1 with
              current_cash := p1.current_cash + (released - commission)
              margin_used := Function.update p1.margin_used symbol
                (some ((p1.margin_used symbol).getD 0 - released)) }
          else p1
      let p3 :=
        if market_rule.settlement_days > 0 then
          if fill_event.direction = Direction.BUY then
            { p2 with pending_settlements := p2.pending_settlements ++
                [{ symbol := symbol, quantity := quantity, buy_time := fill_event.datetime,
                   settlement_days := market_rule.settlement_days }] }
          else
            setHolding p2 symbol
              (let h := (p2.current_holdings symbol).getD {}
               { h with available := h.available - quantity })
        else
          setHolding p2 symbol
            (let h := (p2.current_holdings symbol).getD {}
             { h with available := h.quantity })
      { p3 with
        total_realized_pnl := p3.total_realized_pnl + pnl
        positions := p3.positions ++
          [{ symbol := symbol, fill_price := fill_price, quantity := quantity,
             commission := commission, direction := fill_event.direction,
             time := fill_event.datetime, realized_pnl := pnl }] }

/-- Fold `process_fill_event` over a sequence of fills. -/
def runFills (reg : Registry) (p : PortfolioState) (fills : List FillEvent) : PortfolioState :=
  fills.foldl (processFillEvent reg) p

/-- `ExecutionHandler._execute_order`
(`src/execution/execution_handler.py`): no latest bar drops the order;
the base price is `bar.get('open', bar['close'])`; a failed validation
yields a rejected fill at the base price with zero commission; otherwise
the price runs through clamp, tick normalization, slippage and a second
tick normalization, and the commission is computed on the final price.
Simulated random rejection is disabled in the source (`rejected = False`).
`msqrt` is the square-root function used by volume-based slippage. -/
def executeOrder (msqrt : ℚ → ℚ) (dh : DataHandlerState) (reg : Registry)
    (order_event : OrderEvent) : Option FillEvent :=
  let symbol := order_event.symbol
  let quantity := order_event.quantity
  let direction := order_event.direction
  match getLatestBar dh symbol, registryGet reg symbol with
  | some latest_bar, some instrument =>
    let base_price := latest_bar.openP.getD latest_bar.close
    let market_rule := instrument.market_rule
    let valid := validateOrder market_rule symbol quantity base_price direction
      order_event.datetime
    if valid.1 = false then
      some { symbol := symbol, exchange := market_rule.market_name, quantity := quantity,
             direction := direction, fill_price := base_price,
             datetime := order_event.datetime, rejected := true, commission := 0 }
    else
      let prev_bar := getLatestBars dh symbol 2
      let prev_close := if prev_bar.length ≥ 2 then
          (prev_bar.getD (prev_bar.length - 2) default).close
        else base_price
      let price1 := applyPriceLimit market_rule symbol base_price prev_close direction
      let price2 := normalizePrice market_rule price1
      let price3 := calculateSlippage market_rule msqrt quantity price2 direction
        latest_bar.volume latest_bar.high latest_bar.low
      let fill_price := normalizePrice market_rule price3
      let commission := calculateCommission market_rule symbol quantity fill_price direction
      some { symbol := symbol, exchange := market_rule.market_name, quantity := quantity,
             direction := direction, fill_price := fill_price,
             datetime := order_event.datetime, rejected := false, commission := commission }
  | _, _ => none

/-- The internal-gap loop of `DataLoader._check_exist_data`: for every
adjacent pair with difference exceeding the frequency step, emit the
range strictly between them. -/
def internalGaps (freq_seconds : ℤ) : List ℤ → List (ℤ × ℤ)
  | t1 :: t2 :: rest =>
    (if t2 - t1 > freq_seconds then [(t1 + freq_seconds, t2 - freq_seconds)] else []) ++
      internalGaps freq_seconds (t2 :: rest)
  | _ => []

/-- `DataLoader._check_exist_data` on the cached timestamps `ts`
(already restricted to `[start_time, end_time]` and ascending, as the
SQL query guarantees): the whole range when the cache is empty,
otherwise the head gap, the tail gap and every internal gap.
`freq_seconds` is the seconds count the source parses from the
frequency string. -/
def checkExistData (start_time end_time freq_seconds : ℤ) (ts : List ℤ) : List (ℤ × ℤ) :=
  match ts with
  | [] => [(start_time, end_time)]
  | t :: rest =>
    let first := t
    let last := (t :: rest).getLast (by simp)
    (if first > start_time then [(start_time, first - freq_seconds)] else []) ++
      (if last < end_time then [(last + freq_seconds, end_time)] else []) ++
      internalGaps freq_seconds (t :: rest)

/-! ### Concrete scenarios used by the claim theorems -/

/-- Registry holding one US stock `"A"` (multiplier 1, T+2, no lot). -/
def usRegistry : Registry := registerInstrument emptyRegistry (mkStock "A" usStockRules "USD")

/-- Portfolio holding long 10 of `"A"` at average cost 100, all available. -/
def longTenState : PortfolioState :=
  setHolding (initPortfolio 10000) "A" { quantity := 10, avg_cost := 100, available := 10 }

/-- SELL fill of 5 at price 110, zero commission. -/
def sellFiveFill : FillEvent :=
  { symbol := "A", exchange := "US_STOCK", quantity := 5, direction := Direction.SELL,
    fill_price := 110, datetime := default, rejected := false, commission := 0 }

/-- SELL fill of 15 at price 110, zero commission (the spec's flip scenario). -/
def sellFifteenFill : FillEvent := { sellFiveFill with quantity := 15 }

/-- Data handler that has advanced one bar of `"A"` with close 10. -/
def usBarState : DataHandlerState :=
  (updateBars (initDataHandler ["A"]
    (fun s => if s = "A" then [{ ticker := "A", close := 10 }] else []))).1

/-- SHORT signal of strength 5 on `"A"`. -/
def shortFiveSignal : SignalEvent :=
  { symbol := "A", datetime := default, signal_type := SignalType.SHORT, strength := 5 }

/-- SELL fill of 5 at price 10 on `"A"` (the fill the emitted order produces). -/
def shortFiveFill : FillEvent :=
  { symbol := "A", exchange := "US_STOCK", quantity := 5, direction := Direction.SELL,
    fill_price := 10, datetime := default, rejected := false, commission := 0 }

/-- Registry for the China A main-board symbol `"600000"`. -/
def cnRegistry : Registry :=
  registerInstrument emptyRegistry (mkStock "600000" chinaAShareRules "CNY")

/-- Previous bar of `"600000"`: close 100. -/
def cnBarOne : Bar :=
  { ticker := "600000", openP := some 100, high := 100, low := 100, close := 100, volume := 0 }

/-- Current bar of `"600000"`: opens at 115 (15% above the previous
close) with zero volume. -/
def cnBarTwo : Bar :=
  { ticker := "600000", openP := some 115, high := 116, low := 114, close := 115, volume := 0 }

/-- Data handler that has advanced through both bars of `"600000"`. -/
def cnBarState : DataHandlerState :=
  (updateBars (updateBars (initDataHandler ["600000"]
    (fun s => if s = "600000" then [cnBarOne, cnBarTwo] else []))).1).1

/-- BUY order of one lot of `"600000"` on a Monday at 09:30 local time. -/
def cnBuyOrder : OrderEvent :=
  { symbol := "600000", quantity := 100, direction := Direction.BUY,
    datetime := { weekday := 0, sod := 34200 } }

/-- Bars for the two-symbol data-handler scenario of C6. -/
def barA0 : Bar := { ticker := "A", close := 1 }

/-- Second bar of symbol `"A"` in the C6 scenario. -/
def barA1 : Bar := { ticker := "A", close := 2 }

/-- The only bar of symbol `"B"` in the C6 scenario. -/
def barB0 : Bar := { ticker := "B", close := 3 }

/-- Data handler over symbols `"A"` (two bars) and `"B"` (one bar),
advanced twice: the cursor is 2, `"B"` has one visible bar. -/
def twoSymbolState : DataHandlerState :=
  (updateBars (updateBars (initDataHandler ["A", "B"]
    (fun s => if s = "A" then [barA0, barA1] else if s = "B" then [barB0] else []))).1).1

/-! ### Claim theorems -/

/-- C1: The code realizes `-50` on a long reduction that the claim's
formula values at `+50`: with a long position of 10 at average cost 100
(multiplier 1), a SELL fill of 5 at price 110 with zero commission
leaves quantity 5 and avg_cost 100 unchanged, but adds realized P&L
`-50`, not the claim's `|Δq|·((price − c/|Δq|) − avg_cost)·m = 50`.
Both call sites of `_calculate_pnl` pass the unsigned fill quantity, so
the `quantity > 0` (short-reduction) branch fires for long reductions
too, and the long-reduction branch is dead code. -/
theorem c1_long_reduction_pnl_negated :
    (processFillEvent usRegistry longTenState sellFiveFill).total_realized_pnl = -50 ∧
    (((processFillEvent usRegistry longTenState sellFiveFill).current_holdings "A").getD
      {}).quantity = 5 ∧
    (((processFillEvent usRegistry longTenState sellFiveFill).current_holdings "A").getD
      {}).avg_cost = 100 ∧
    (5 : ℚ) * ((110 - 0 / 5) - 100) * 1 = 50 ∧
    (-50 : ℚ) ≠ 5 * ((110 - 0 / 5) - 100) * 1 := by
  refine ⟨?_, ?_, ?_, by norm_num, by norm_num⟩ <;>
    · simp [processFillEvent, registryGet, usRegistry, registerInstrument, emptyRegistry,
        mkStock, usStockRules, longTenState, setHolding, initPortfolio, sellFiveFill,
        addCurrentHolding, reduceCurrentHolding, calculatePnl, calculateMargin,
        Function.update]
      try norm_num

/-- C2: The spec's flip scenario — long 10 at avg_cost 100, SELL 15 at
price 110, multiplier 1, zero commission.  The ending position is the
short 5 at avg_cost 110 the claim states, but the realized P&L is
`-150`, not the claim's `10·(110−100) = 100`: the code values the full
fill quantity 15 (not the closed leg of 10) with the sign-flipped
short-reduction formula. -/
theorem c2_flip_realizes_on_full_quantity_negated :
    (processFillEvent usRegistry longTenState sellFifteenFill).total_realized_pnl = -150 ∧
    (((processFillEvent usRegistry longTenState sellFifteenFill).current_holdings "A").getD
      {}).quantity = -5 ∧
    (((processFillEvent usRegistry longTenState sellFifteenFill).current_holdings "A").getD
      {}).avg_cost = 110 ∧
    (-150 : ℚ) ≠ 10 * (110 - 100) := by
  refine ⟨?_, ?_, ?_, by norm_num⟩ <;>
    · simp [processFillEvent, registryGet, usRegistry, registerInstrument, emptyRegistry,
        mkStock, usStockRules, longTenState, setHolding, initPortfolio, sellFiveFill,
        sellFifteenFill, addCurrentHolding, reduceCurrentHolding, calculatePnl,
        calculateMargin, Function.update]
      try norm_num

/-- C3 counterexample: `"A"` is a T+2 market symbol with no holding
record and available 0, yet the portfolio's signal-conversion step
emits the SELL order of size 5 (the claim says it is refused), and
after the resulting fill the holding has `available = -5`, violating
`0 ≤ available`.  The availability check of `process_signal_event` is
guarded by `symbol in self.current_holdings`, so unheld symbols skip
it. -/
theorem c3_counterexample_unheld_sell_not_refused :
    processSignalEvent usBarState usRegistry (initPortfolio 10000) (some shortFiveSignal) =
      some { symbol := "A", quantity := 5, direction := Direction.SELL,
             datetime := default } ∧
    (((processFillEvent usRegistry (initPortfolio 10000) shortFiveFill).current_holdings
      "A").getD {}).available = -5 ∧
    ¬ (0 : ℤ) ≤ -5 := by
  refine ⟨?_, ?_, by norm_num⟩ <;>
    · simp [processSignalEvent, processFillEvent, registryGet, usRegistry, registerInstrument,
        emptyRegistry, mkStock, usStockRules, usBarState, updateBars, initDataHandler,
        getLatestBar, shortFiveSignal, shortFiveFill, initPortfolio, setHolding,
        addCurrentHolding, reduceCurrentHolding, calculatePnl, calculateMargin,
        normalizeQuantity, pyInt, Function.update]
      try norm_num

/-- Portfolio with a holding record for `"A"`: long 100 at cost 10,
with 0 available (e.g. bought but not yet settled). -/
def heldNoneAvailableState : PortfolioState :=
  setHolding (initPortfolio 10000) "A" { quantity := 100, avg_cost := 10, available := 0 }

/-- C3 (amended): the refusal does hold for symbols that already have a
holding record — when the signal is SHORT, the symbol's market is T+N,
the symbol has a holding record, and the lot-normalized requested
quantity exceeds its available quantity, `process_signal_event` emits
no order. -/
theorem c3_amended_sell_refused_with_record
    (dh : DataHandlerState) (reg : Registry) (p : PortfolioState) (se : SignalEvent)
    (bar : Bar) (instrument : Instrument) (h : Holding)
    (hsig : se.signal_type = SignalType.SHORT)
    (hbar : getLatestBar dh se.symbol = some bar)
    (hreg : registryGet reg se.symbol = some instrument)
    (htn : instrument.market_rule.settlement_days > 0)
    (hh : p.current_holdings se.symbol = some h)
    (hav : h.available < normalizeQuantity instrument.market_rule (pyInt se.strength)) :
    processSignalEvent dh reg p (some se) = none := by
  simp only [processSignalEvent, hsig, hbar, hreg, hh]
  split_ifs with h1 h2 h3
  · rfl
  · rfl
  · rfl
  · refine absurd ⟨?_, htn, ?_⟩ h3 <;> first
      | trivial
      | simpa using hav

/-- C3 amended witness: with a holding record of 100 shares and 0
available on the T+2 symbol `"A"`, the SHORT signal of strength 5 is
refused. -/
theorem c3_amended_witness :
    processSignalEvent usBarState usRegistry heldNoneAvailableState (some shortFiveSignal) =
      none := by
  exact c3_amended_sell_refused_with_record usBarState usRegistry heldNoneAvailableState
    shortFiveSignal { ticker := "A", close := 10 }
    (mkStock "A" usStockRules "USD") { quantity := 100, avg_cost := 10, available := 0 }
    rfl rfl rfl (by decide) rfl (by decide)

/-- A clamp to `[pc·(1−L), pc·(1+L)]` stays within `L·pc` of `pc`. -/
lemma abs_clamp_le (pc price L : ℚ) (hpc : 0 < pc) (hL : 0 ≤ L) :
    |max (pc * (1 - L)) (min (pc * (1 + L)) price) - pc| ≤ L * pc := by
  rw [abs_le]
  constructor
  · have h1 : pc * (1 - L) ≤ max (pc * (1 - L)) (min (pc * (1 + L)) price) :=
      le_max_left _ _
    nlinarith
  · have h2 : max (pc * (1 - L)) (min (pc * (1 + L)) price) ≤ pc * (1 + L) := by
      refine max_le (by nlinarith) ?_
      exact min_le_left _ _
    nlinarith

/-- C4 (amended): the price-limit bound holds at the output of
`apply_price_limit` itself — for China A and a positive previous close,
the clamped price is within `L · prev_close` of `prev_close`, with `L`
determined by the symbol prefix exactly as in the source (0.05 for
`ST`/`*ST`, 0.20 for `688`/`300`, 0.10 otherwise).  The subsequent
slippage and tick normalization steps of `_execute_order` can push the
final fill price back outside this band. -/
theorem c4_amended_clamp_within_band (symbol : String) (price prev_close : ℚ)
    (direction : Direction) (hpc : 0 < prev_close) :
    |applyPriceLimit chinaAShareRules symbol price prev_close direction - prev_close| ≤
      (if pyStartsWith symbol "ST" ∨ pyStartsWith symbol "*ST" then (5/100 : ℚ)
       else if pyStartsWith symbol "688" ∨ pyStartsWith symbol "300" then 20/100
       else 10/100) * prev_close := by
  simp only [applyPriceLimit, chinaAShareRules, if_true]
  rw [if_neg (not_le.mpr hpc)]
  split_ifs <;> exact abs_clamp_le prev_close price _ hpc (by norm_num)

/-- C4 amended witness: main-board symbol `"600000"`, base price 115,
previous close 100 — the clamp keeps the price within 10 of 100. -/
theorem c4_amended_witness :
    (0 : ℚ) < 100 ∧
    |applyPriceLimit chinaAShareRules "600000" 115 100 Direction.BUY - 100| ≤
      (if pyStartsWith "600000" "ST" ∨ pyStartsWith "600000" "*ST" then (5/100 : ℚ)
       else if pyStartsWith "600000" "688" ∨ pyStartsWith "600000" "300" then 20/100
       else 10/100) * 100 :=
  ⟨by norm_num, c4_amended_clamp_within_band "600000" 115 100 Direction.BUY (by norm_num)⟩

/-- C4 counterexample: executing the lot-valid BUY of 100 `"600000"`
shares during trading hours against a bar that opens 15% above the
previous close of 100 (and has zero volume, so volume-based slippage
takes its 0.1% default branch and the square-root function is never
consulted) produces a non-rejected fill at 110.11: the clamp yields
110, but slippage then adds 0.11, so the final fill price violates
`|fill_price − prev_close| / prev_close ≤ 0.10`. -/
theorem c4_counterexample_slippage_breaks_limit :
    (executeOrder Rat.sqrt cnBarState cnRegistry cnBuyOrder).map (fun f => f.fill_price) =
      some (11011/100) ∧
    (executeOrder Rat.sqrt cnBarState cnRegistry cnBuyOrder).map (fun f => f.rejected) =
      some false ∧
    ¬ |(11011/100 : ℚ) - 100| / 100 ≤ 10/100 := by
  have hbar : getLatestBar cnBarState "600000" = some cnBarTwo := by
    simp [getLatestBar, cnBarState, initDataHandler, updateBars, Function.update]
  have hbars : getLatestBars cnBarState "600000" 2 = [cnBarOne, cnBarTwo] := by
    simp [getLatestBars, cnBarState, initDataHandler, updateBars, Function.update]
  have hreg : registryGet cnRegistry "600000" =
      some (mkStock "600000" chinaAShareRules "CNY") := by
    simp [registryGet, cnRegistry, registerInstrument, emptyRegistry, mkStock,
      Function.update]
  have hval : (validateOrder chinaAShareRules "600000" 100 115 Direction.BUY
      { weekday := 0, sod := 34200 }).1 = true := by decide
  have hclamp : applyPriceLimit chinaAShareRules "600000" 115 100 Direction.BUY = 110 := by
    have hST : pyStartsWith "600000" "ST" = false := by decide
    have hSST : pyStartsWith "600000" "*ST" = false := by decide
    have h688 : pyStartsWith "600000" "688" = false := by decide
    have h300 : pyStartsWith "600000" "300" = false := by decide
    simp [applyPriceLimit, chinaAShareRules, hST, hSST, h688, h300]
    norm_num
  have hnorm1 : normalizePrice chinaAShareRules 110 = 110 := by
    norm_num [normalizePrice, pyRound, chinaAShareRules]
  have hslip : calculateSlippage chinaAShareRules Rat.sqrt 100 110 Direction.BUY 0 116 114 =
      11011/100 := by
    simp [calculateSlippage, chinaAShareRules]
    norm_num
  have hnorm2 : normalizePrice chinaAShareRules (11011/100) = 11011/100 := by
    norm_num [normalizePrice, pyRound, chinaAShareRules]
  refine ⟨?_, ?_, by rw [abs_of_nonneg (by norm_num)]; norm_num⟩ <;>
    · simp only [executeOrder, cnBuyOrder, hbar, hreg, hval, hbars, mkStock]
      norm_num [hval, hclamp, hnorm1, hslip, hnorm2, cnBarOne, cnBarTwo]

/-- C5 counterexample: a China A SELL of 150 shares (not a multiple of
the 100-share lot) on a Saturday (weekday 5, outside every session) is
reported valid — the SELL direction returns ok before the lot-size and
trading-hours checks run. -/
theorem c5_counterexample_china_a_sell_skips_checks :
    validateOrder chinaAShareRules "600000" 150 10 Direction.SELL { weekday := 5, sod := 0 } =
      (true, "") ∧
    ¬ (150 : ℤ) % 100 = 0 ∧
    isTradingTime chinaAShareRules { weekday := 5, sod := 0 } = false := by
  refine ⟨by decide, by decide, by decide⟩

/-- C5 (amended): the lot-size and trading-hours checks do reject
whenever they run — for China A they run on BUY orders only (a SELL
returns ok unconditionally because `allow_short` is false and the
position check is deferred to the portfolio), while for HK they run on
both directions. -/
theorem c5_amended_lot_and_hours_enforced :
    (∀ (symbol : String) (quantity : ℤ) (price : ℚ) (t : WallClock),
      (¬ quantity % chinaAShareRules.lot_size = 0 ∨
        isTradingTime chinaAShareRules t = false) →
      (validateOrder chinaAShareRules symbol quantity price Direction.BUY t).1 = false) ∧
    (∀ (symbol : String) (quantity : ℤ) (price : ℚ) (direction : Direction) (t : WallClock),
      (¬ quantity % hkStockRules.lot_size = 0 ∨
        isTradingTime hkStockRules t = false) →
      (validateOrder hkStockRules symbol quantity price direction t).1 = false) := by
  constructor
  · intro symbol quantity price t hbad
    simp only [validateOrder, chinaAShareRules] at hbad ⊢
    split_ifs <;> simp_all
  · intro symbol quantity price direction t hbad
    simp only [validateOrder, hkStockRules] at hbad ⊢
    split_ifs <;> simp_all

/-- C5 amended witness: a China A BUY of 150 shares during trading
hours is rejected (lot), and an HK SELL on a Saturday is rejected
(hours). -/
theorem c5_amended_witness :
    (validateOrder chinaAShareRules "600000" 150 10 Direction.BUY
      { weekday := 0, sod := 34200 }).1 = false ∧
    (validateOrder hkStockRules "0001" 100 10 Direction.SELL
      { weekday := 5, sod := 34200 }).1 = false :=
  ⟨c5_amended_lot_and_hours_enforced.1 "600000" 150 10 { weekday := 0, sod := 34200 }
      (Or.inl (by decide)),
    c5_amended_lot_and_hours_enforced.2 "0001" 100 10 Direction.SELL
      { weekday := 5, sod := 34200 } (Or.inr (by decide))⟩

/-- C6: the latest-N query depends on whether the symbol received a bar
at the most recent advance, contradicting the claim's strict
semantics.  In the two-symbol run, `"B"` has one visible bar but missed
the latest advance (cursor 2): `get_latest_bars("B", 1)` returns `[]`
while the spec's semantics returns that bar. -/
theorem c6_latest_n_depends_on_cursor :
    getLatestBars twoSymbolState "B" 1 = [] ∧
    specLatestN twoSymbolState "B" 1 = [barB0] ∧
    (twoSymbolState.latestData "B").length = 1 ∧
    twoSymbolState.barIndex = 2 := by
  refine ⟨?_, ?_, ?_, ?_⟩ <;>
    · simp [getLatestBars, specLatestN, twoSymbolState, initDataHandler, updateBars,
        barA0, barA1, barB0, Function.update]

/-- C7: when validation fails, `_execute_order` returns a rejected fill
at the base bar price (`open`, falling back to `close`) with zero
commission — it touches no other state — and
`Portfolio.process_fill_event` on any rejected fill returns the
portfolio state unchanged (cash, holdings, margin, settlements,
realized P&L and the positions history included). -/
theorem c7_rejected_fill_leaves_state_unchanged
    (msqrt : ℚ → ℚ) (dh : DataHandlerState) (reg : Registry) (order : OrderEvent)
    (bar : Bar) (instrument : Instrument)
    (hbar : getLatestBar dh order.symbol = some bar)
    (hreg : registryGet reg order.symbol = some instrument)
    (hval : (validateOrder instrument.market_rule order.symbol order.quantity
      (bar.openP.getD bar.close) order.direction order.datetime).1 = false) :
    executeOrder msqrt dh reg order =
      some { symbol := order.symbol, exchange := instrument.market_rule.market_name,
             quantity := order.quantity, direction := order.direction,
             fill_price := bar.openP.getD bar.close, datetime := order.datetime,
             rejected := true, commission := 0 } ∧
    ∀ (p : PortfolioState) (fill : FillEvent), fill.rejected = true →
      processFillEvent reg p fill = p := by
  constructor
  · simp only [executeOrder, hbar, hreg]
    rw [if_pos hval]
  · intro p fill hfill
    simp only [processFillEvent, hfill, if_true]

/-- A BUY order of 150 `"600000"` shares (not a lot multiple) during
trading hours: China A validation fails. -/
def cnBadLotOrder : OrderEvent :=
  { symbol := "600000", quantity := 150, direction := Direction.BUY,
    datetime := { weekday := 0, sod := 34200 } }

/-- An arbitrary rejected fill. -/
def rejectedFill : FillEvent :=
  { symbol := "600000", exchange := "CHINA_A", quantity := 150,
    direction := Direction.BUY, fill_price := 115,
    datetime := { weekday := 0, sod := 34200 }, rejected := true, commission := 0 }

/-- C7 witness: the lot-violating BUY is executed into a rejected fill
at the base price 115 with zero commission, and processing a rejected
fill leaves a concrete portfolio unchanged. -/
theorem c7_witness :
    executeOrder Rat.sqrt cnBarState cnRegistry cnBadLotOrder =
      some { symbol := "600000", exchange := "CHINA_A", quantity := 150,
             direction := Direction.BUY, fill_price := 115,
             datetime := { weekday := 0, sod := 34200 }, rejected := true,
             commission := 0 } ∧
    processFillEvent cnRegistry (initPortfolio 10000) rejectedFill = initPortfolio 10000 := by
  have hbar : getLatestBar cnBarState "600000" = some cnBarTwo := by
    simp [getLatestBar, cnBarState, initDataHandler, updateBars, Function.update]
  have hreg : registryGet cnRegistry "600000" =
      some (mkStock "600000" chinaAShareRules "CNY") := by
    simp [registryGet, cnRegistry, registerInstrument, emptyRegistry, mkStock,
      Function.update]
  have h := c7_rejected_fill_leaves_state_unchanged Rat.sqrt cnBarState cnRegistry
    cnBadLotOrder cnBarTwo (mkStock "600000" chinaAShareRules "CNY") hbar hreg (by decide)
  exact ⟨h.1, h.2 (initPortfolio 10000) rejectedFill rfl⟩

/-- Membership in a conditional singleton. -/
lemma mem_ite_singleton {α : Type} (c : Prop) [Decidable c] (x p : α) :
    p ∈ (if c then [x] else []) ↔ c ∧ p = x := by
  split <;> simp_all

/-- Membership characterization of the internal-gap loop: exactly the
ranges strictly between adjacent cached timestamps that are more than
one step apart. -/
lemma mem_internalGaps_iff (freq_seconds : ℤ) :
    ∀ (ts : List ℤ) (p : ℤ × ℤ),
      p ∈ internalGaps freq_seconds ts ↔
        ∃ l1 a b l2, ts = l1 ++ a :: b :: l2 ∧ b - a > freq_seconds ∧
          p = (a + freq_seconds, b - freq_seconds) := by
  intro ts
  induction ts with
  | nil =>
    intro p
    simp only [internalGaps, List.not_mem_nil, false_iff]
    rintro ⟨l1, a, b, l2, heq, -, -⟩
    exact absurd (congrArg List.length heq) (by simp; omega)
  | cons t1 rest ih =>
    cases rest with
    | nil =>
      intro p
      simp only [internalGaps, List.not_mem_nil, false_iff]
      rintro ⟨l1, a, b, l2, heq, -, -⟩
      have hlen := congrArg List.length heq
      simp at hlen
      omega
    | cons t2 rest2 =>
      intro p
      rw [show internalGaps freq_seconds (t1 :: t2 :: rest2) =
        (if t2 - t1 > freq_seconds then [(t1 + freq_seconds, t2 - freq_seconds)] else []) ++
          internalGaps freq_seconds (t2 :: rest2) from rfl]
      rw [List.mem_append, mem_ite_singleton, ih]
      constructor
      · rintro (⟨hgap, hp⟩ | ⟨l1, a, b, l2, heq, hgap, hp⟩)
        · exact ⟨[], t1, t2, rest2, rfl, hgap, hp⟩
        · exact ⟨t1 :: l1, a, b, l2, by rw [heq]; rfl, hgap, hp⟩
      · rintro ⟨l1, a, b, l2, heq, hgap, hp⟩
        rcases l1 with _ | ⟨x, l1x⟩
        · simp only [List.nil_append, List.cons.injEq] at heq
          obtain ⟨h1, h2, h3⟩ := heq
          exact Or.inl ⟨by rw [h1, h2]; exact hgap, by rw [h1, h2]; exact hp⟩
        · simp only [List.cons_append, List.cons.injEq] at heq
          exact Or.inr ⟨l1x, a, b, l2, heq.2, hgap, hp⟩

/-- C8: `_check_exist_data` returns the whole request when the cache is
empty, and otherwise exactly the head gap `(S, t₁−Δ)` when `t₁ > S`,
the tail gap `(tₖ+Δ, E)` when `tₖ < E`, and one range
`(tᵢ+Δ, tᵢ₊₁−Δ)` for every internal gap `tᵢ₊₁ − tᵢ > Δ`, for cached
timestamps sorted ascending inside `[S, E]`. -/
theorem c8_missing_ranges_characterized (start_time end_time freq_seconds : ℤ)
    (ts : List ℤ) (hsorted : ts.Sorted (· < ·))
    (hrange : ∀ t ∈ ts, start_time ≤ t ∧ t ≤ end_time) :
    (ts = [] →
      checkExistData start_time end_time freq_seconds ts = [(start_time, end_time)]) ∧
    (∀ hne : ts ≠ [], ∀ p : ℤ × ℤ,
      p ∈ checkExistData start_time end_time freq_seconds ts ↔
        (ts.head hne > start_time ∧ p = (start_time, ts.head hne - freq_seconds)) ∨
        (ts.getLast hne < end_time ∧ p = (ts.getLast hne + freq_seconds, end_time)) ∨
        (∃ l1 a b l2, ts = l1 ++ a :: b :: l2 ∧ b - a > freq_seconds ∧
          p = (a + freq_seconds, b - freq_seconds))) := by
  constructor
  · intro h
    subst h
    rfl
  · intro hne p
    rcases ts with _ | ⟨t, rest⟩
    · exact absurd rfl hne
    · simp only [checkExistData, List.mem_append, mem_ite_singleton,
        mem_internalGaps_iff, List.head_cons]
      tauto

/-- C8 witness: the spec's gap-tiling example — cached timestamps
{100, 200, 400}, step 100, request [0, 600] — yields exactly the
ranges (0,0), (300,300) and (500,600). -/
theorem c8_witness :
    (300, 300) ∈ checkExistData 0 600 100 [100, 200, 400] ∧
    (0, 0) ∈ checkExistData 0 600 100 [100, 200, 400] ∧
    (500, 600) ∈ checkExistData 0 600 100 [100, 200, 400] := by
  have h := (c8_missing_ranges_characterized 0 600 100 [100, 200, 400]
    (by decide) (by decide)).2 (by decide)
  exact ⟨(h (300, 300)).mpr (Or.inr (Or.inr ⟨[100], 200, 400, [], rfl, by decide, rfl⟩)),
    (h (0, 0)).mpr (Or.inl ⟨by decide, by decide⟩),
    (h (500, 600)).mpr (Or.inr (Or.inl ⟨by decide, by decide⟩))⟩

/-- Folding registrations over any starting registry: a lookup returns
the last registration for the symbol, falling back to the starting
registry. -/
lemma foldl_register_get (insts : List Instrument) :
    ∀ (r : Registry) (s : String),
      registryGet (insts.foldl registerInstrument r) s =
        match (insts.filter (fun i => decide (i.symbol = s))).getLast? with
        | some i => some i
        | none => r s := by
  induction insts using List.reverseRecOn with
  | nil => intro r s; rfl
  | append_singleton rest i ih =>
    intro r s
    rw [List.foldl_append, List.foldl_cons, List.foldl_nil, List.filter_append]
    by_cases hs : i.symbol = s
    · have hfil : List.filter (fun j => decide (j.symbol = s)) [i] = [i] := by simp [hs]
      rw [hfil, List.getLast?_concat]
      simp [registryGet, registerInstrument, Function.update, hs]
    · have hfil : List.filter (fun j => decide (j.symbol = s)) [i] = [] := by simp [hs]
      rw [hfil, List.append_nil,
        show registryGet (registerInstrument (rest.foldl registerInstrument r) i) s =
            registryGet (rest.foldl registerInstrument r) s from
          Function.update_noteq (fun h => hs h.symm) _ _,
        ih]

/-- C10: `InstrumentRegistry.get` returns `none` for a symbol that was
never registered and the most recently registered instrument for that
symbol otherwise — registering a symbol again replaces the earlier
instrument, since the lookup equals the last element of the
registrations filtered to that symbol. -/
theorem c10_registry_get_last_registered (insts : List Instrument) (s : String) :
    registryGet (insts.foldl registerInstrument emptyRegistry) s =
      (insts.filter (fun i => decide (i.symbol = s))).getLast? := by
  rw [foldl_register_get]
  rcases h : (insts.filter (fun i => decide (i.symbol = s))).getLast? with _ | j <;>
    · rw [h]
      try rfl

/-- A BUY fill on a symbol held non-negatively lands in the open or add
branch of `process_fill_event`, and the holding becomes: quantity
increased by the fill quantity, `avg_cost` the commission-folding
weighted average of `_add_current_holding`. -/
lemma processFill_buy_holding (reg : Registry) (instr : Instrument) (p : PortfolioState)
    (f : FillEvent) (hreg : registryGet reg f.symbol = some instr)
    (hrej : f.rejected = false) (hdir : f.direction = Direction.BUY) (hq : 0 < f.quantity)
    (hcq : 0 ≤ ((p.current_holdings f.symbol).getD {}).quantity) :
    (((processFillEvent reg p f).current_holdings f.symbol).getD {}).quantity =
      ((p.current_holdings f.symbol).getD {}).quantity + f.quantity ∧
    (((processFillEvent reg p f).current_holdings f.symbol).getD {}).avg_cost =
      (((p.current_holdings f.symbol).getD {}).avg_cost *
          ((p.current_holdings f.symbol).getD {}).quantity +
        (f.fill_price + f.commission / |(f.quantity : ℚ)|) * f.quantity) /
        (((p.current_holdings f.symbol).getD {}).quantity + (f.quantity : ℚ)) := by
  set h0 := (p.current_holdings f.symbol).getD {} with hh0
  by_cases hq0 : h0.quantity = 0
  · simp only [processFillEvent, hrej, Bool.false_eq_true, if_false, hreg, hdir,
      setHolding, addCurrentHolding, reduceCurrentHolding, calculatePnl,
      Function.update_same, Option.getD_some, if_true, ← hh0, hq0, zero_add,
      gt_iff_lt, hq, if_pos hq, ne_eq, hq.ne', not_false_eq_true]
    split_ifs <;> simp_all
  · have hqpos : 0 < h0.quantity := lt_of_le_of_ne hcq (Ne.symm hq0)
    have hmul : 0 < h0.quantity * f.quantity := mul_pos hqpos hq
    simp only [processFillEvent, hrej, Bool.false_eq_true, if_false, hreg, hdir,
      setHolding, addCurrentHolding, reduceCurrentHolding, calculatePnl,
      Function.update_same, Option.getD_some, if_true, ← hh0, hq0, if_false,
      gt_iff_lt, hmul, if_pos hmul, hq, ne_eq, not_false_eq_true]
    split_ifs <;> simp_all

/-- Mirror of `processFill_buy_holding` for a SELL fill on a symbol
held non-positively (opening or adding to a short): quantity decreases
by the fill quantity and the commission is folded with the opposite
sign. -/
lemma processFill_sell_holding (reg : Registry) (instr : Instrument) (p : PortfolioState)
    (f : FillEvent) (hreg : registryGet reg f.symbol = some instr)
    (hrej : f.rejected = false) (hdir : f.direction = Direction.SELL) (hq : 0 < f.quantity)
    (hcq : ((p.current_holdings f.symbol).getD {}).quantity ≤ 0) :
    (((processFillEvent reg p f).current_holdings f.symbol).getD {}).quantity =
      ((p.current_holdings f.symbol).getD {}).quantity - f.quantity ∧
    (((processFillEvent reg p f).current_holdings f.symbol).getD {}).avg_cost =
      (((p.current_holdings f.symbol).getD {}).avg_cost *
          ((p.current_holdings f.symbol).getD {}).quantity +
        (f.fill_price - f.commission / |(f.quantity : ℚ)|) * (-(f.quantity : ℚ))) /
        (((p.current_holdings f.symbol).getD {}).quantity - (f.quantity : ℚ)) := by
  set h0 := (p.current_holdings f.symbol).getD {} with hh0
  clear_value h0
  by_cases hq0 : h0.quantity = 0
  · simp only [processFillEvent, hrej, Bool.false_eq_true, if_false, hreg, hdir,
      setHolding, addCurrentHolding, reduceCurrentHolding, calculatePnl,
      Function.update_same, Option.getD_some, if_true, ← hh0, hq0, zero_add,
      gt_iff_lt, hq, ne_eq, not_false_eq_true, reduceCtorEq, if_false]
    split_ifs <;> first
      | (exfalso; omega)
      | (simp_all; done)
      | (simp_all [sub_eq_add_neg, Int.cast_neg, abs_neg]; done)
      | (constructor <;> ring_nf)
  · have hqneg : h0.quantity < 0 := lt_of_le_of_ne hcq hq0
    have hmul : 0 < h0.quantity * -f.quantity := mul_pos_of_neg_of_neg hqneg (by omega)
    simp only [processFillEvent, hrej, Bool.false_eq_true, if_false, hreg, hdir,
      setHolding, addCurrentHolding, reduceCurrentHolding, calculatePnl,
      Function.update_same, Option.getD_some, if_true, ← hh0, hq0, if_false,
      gt_iff_lt, hmul, if_pos hmul, hq, ne_eq, not_false_eq_true, reduceCtorEq]
    split_ifs <;> first
      | (exfalso; omega)
      | (simp_all; done)
      | (simp_all [sub_eq_add_neg, Int.cast_neg, abs_neg]; done)
      | (constructor <;> ring_nf)

/-- Folding same-direction BUY fills: quantity accumulates and
`avg_cost · quantity` accumulates `price·|Δq| + commission` per fill. -/
lemma runFills_buy (reg : Registry) (instr : Instrument) (s : String)
    (hreg : registryGet reg s = some instr) :
    ∀ (fills : List FillEvent) (p : PortfolioState),
      (∀ f ∈ fills, f.symbol = s ∧ f.direction = Direction.BUY ∧ f.rejected = false ∧
        0 < f.quantity) →
      0 ≤ ((p.current_holdings s).getD {}).quantity →
      (((runFills reg p fills).current_holdings s).getD {}).quantity =
        ((p.current_holdings s).getD {}).quantity + (fills.map (fun f => f.quantity)).sum ∧
      (((runFills reg p fills).current_holdings s).getD {}).avg_cost *
          ((((runFills reg p fills).current_holdings s).getD {}).quantity : ℚ) =
        ((p.current_holdings s).getD {}).avg_cost *
            (((p.current_holdings s).getD {}).quantity : ℚ) +
          (fills.map (fun f => f.fill_price * (f.quantity : ℚ) + f.commission)).sum := by
  intro fills
  induction fills with
  | nil => intro p _ _; simp [runFills]
  | cons f fs ih =>
    intro p hall hpos
    obtain ⟨hsym, hdir, hrej, hq⟩ := hall f (List.mem_cons_self f fs)
    have hreg' : registryGet reg f.symbol = some instr := by rw [hsym]; exact hreg
    have hstep := processFill_buy_holding reg instr p f hreg' hrej hdir hq
      (by rw [hsym]; exact hpos)
    rw [hsym] at hstep
    have hq1 : 0 ≤ (((processFillEvent reg p f).current_holdings s).getD {}).quantity := by
      rw [hstep.1]; omega
    have hrun : runFills reg p (f :: fs) = runFills reg (processFillEvent reg p f) fs := rfl
    obtain ⟨ih1, ih2⟩ := ih (processFillEvent reg p f)
      (fun g hg => hall g (List.mem_cons_of_mem _ hg)) hq1
    rw [hrun]
    constructor
    · rw [ih1, hstep.1]
      simp only [List.map_cons, List.sum_cons]
      ring
    · rw [ih2]
      have habs : |(f.quantity : ℚ)| = (f.quantity : ℚ) :=
        abs_of_pos (by exact_mod_cast hq)
      have hden : (((p.current_holdings s).getD {}).quantity : ℚ) + (f.quantity : ℚ) ≠ 0 := by
        have : (0 : ℚ) < (((p.current_holdings s).getD {}).quantity : ℚ) + (f.quantity : ℚ) := by
          push_cast
          exact_mod_cast add_pos_of_nonneg_of_pos hpos hq
        exact ne_of_gt this
      have hqz : (f.quantity : ℚ) ≠ 0 := by
        exact_mod_cast hq.ne'
      rw [hstep.2, hstep.1]
      push_cast
      rw [div_mul_cancel₀ _ hden]
      simp only [List.map_cons, List.sum_cons, habs]
      field_simp
      ring

/-- Folding same-direction SELL fills (short side): quantity
accumulates negatively and `avg_cost · quantity` accumulates
`−(price·|Δq| − commission)` per fill. -/
lemma runFills_sell (reg : Registry) (instr : Instrument) (s : String)
    (hreg : registryGet reg s = some instr) :
    ∀ (fills : List FillEvent) (p : PortfolioState),
      (∀ f ∈ fills, f.symbol = s ∧ f.direction = Direction.SELL ∧ f.rejected = false ∧
        0 < f.quantity) →
      ((p.current_holdings s).getD {}).quantity ≤ 0 →
      (((runFills reg p fills).current_holdings s).getD {}).quantity =
        ((p.current_holdings s).getD {}).quantity - (fills.map (fun f => f.quantity)).sum ∧
      (((runFills reg p fills).current_holdings s).getD {}).avg_cost *
          ((((runFills reg p fills).current_holdings s).getD {}).quantity : ℚ) =
        ((p.current_holdings s).getD {}).avg_cost *
            (((p.current_holdings s).getD {}).quantity : ℚ) -
          (fills.map (fun f => f.fill_price * (f.quantity : ℚ) - f.commission)).sum := by
  intro fills
  induction fills with
  | nil => intro p _ _; simp [runFills]
  | cons f fs ih =>
    intro p hall hneg
    obtain ⟨hsym, hdir, hrej, hq⟩ := hall f (List.mem_cons_self f fs)
    have hreg' : registryGet reg f.symbol = some instr := by rw [hsym]; exact hreg
    have hstep := processFill_sell_holding reg instr p f hreg' hrej hdir hq
      (by rw [hsym]; exact hneg)
    rw [hsym] at hstep
    have hq1 : (((processFillEvent reg p f).current_holdings s).getD {}).quantity ≤ 0 := by
      rw [hstep.1]; omega
    have hrun : runFills reg p (f :: fs) = runFills reg (processFillEvent reg p f) fs := rfl
    obtain ⟨ih1, ih2⟩ := ih (processFillEvent reg p f)
      (fun g hg => hall g (List.mem_cons_of_mem _ hg)) hq1
    rw [hrun]
    constructor
    · rw [ih1, hstep.1]
      simp only [List.map_cons, List.sum_cons]
      ring
    · rw [ih2]
      have habs : |(f.quantity : ℚ)| = (f.quantity : ℚ) :=
        abs_of_pos (by exact_mod_cast hq)
      have hden : (((p.current_holdings s).getD {}).quantity : ℚ) - (f.quantity : ℚ) ≠ 0 := by
        have : (((p.current_holdings s).getD {}).quantity : ℚ) - (f.quantity : ℚ) < 0 := by
          have h1 : (((p.current_holdings s).getD {}).quantity : ℚ) ≤ 0 := by
            exact_mod_cast hneg
          have h2 : (0 : ℚ) < (f.quantity : ℚ) := by exact_mod_cast hq
          linarith
        exact ne_of_lt this
      have hqz : (f.quantity : ℚ) ≠ 0 := by exact_mod_cast hq.ne'
      rw [hstep.2, hstep.1]
      push_cast
      rw [div_mul_cancel₀ _ hden]
      simp only [List.map_cons, List.sum_cons, habs]
      field_simp
      ring

/-- C9: starting from a fresh portfolio, after any sequence of
same-direction opening/adding fills on one registered symbol,
`avg_cost · quantity` equals `Σ (price_i · |Δq_i| + c_i)` for a long
position built by BUY fills, and the mirrored
`−Σ (price_i · |Δq_i| − c_i)` for a short position built by SELL
fills, exactly (the floating-point rounding of the source is the exact
`ℚ` arithmetic here). -/
theorem c9_weighted_average_cost (reg : Registry) (instr : Instrument) (s : String)
    (hreg : registryGet reg s = some instr) (cap : ℚ) (fills : List FillEvent) :
    ((∀ f ∈ fills, f.symbol = s ∧ f.direction = Direction.BUY ∧ f.rejected = false ∧
        0 < f.quantity) →
      (((runFills reg (initPortfolio cap) fills).current_holdings s).getD {}).quantity =
        (fills.map (fun f => f.quantity)).sum ∧
      (((runFills reg (initPortfolio cap) fills).current_holdings s).getD {}).avg_cost *
          ((((runFills reg (initPortfolio cap) fills).current_holdings s).getD
            {}).quantity : ℚ) =
        (fills.map (fun f => f.fill_price * (f.quantity : ℚ) + f.commission)).sum) ∧
    ((∀ f ∈ fills, f.symbol = s ∧ f.direction = Direction.SELL ∧ f.rejected = false ∧
        0 < f.quantity) →
      (((runFills reg (initPortfolio cap) fills).current_holdings s).getD {}).quantity =
        -(fills.map (fun f => f.quantity)).sum ∧
      (((runFills reg (initPortfolio cap) fills).current_holdings s).getD {}).avg_cost *
          ((((runFills reg (initPortfolio cap) fills).current_holdings s).getD
            {}).quantity : ℚ) =
        -(fills.map (fun f => f.fill_price * (f.quantity : ℚ) - f.commission)).sum) := by
  constructor
  · intro hall
    have h := runFills_buy reg instr s hreg fills (initPortfolio cap) hall
      (by simp [initPortfolio])
    simp only [initPortfolio] at h
    simpa using h
  · intro hall
    have h := runFills_sell reg instr s hreg fills (initPortfolio cap) hall
      (by simp [initPortfolio])
    simp only [initPortfolio] at h
    simpa using h

/-- BUY fill of 10 `"A"` at 100, zero commission. -/
def buyTenAt100 : FillEvent :=
  { symbol := "A", exchange := "US_STOCK", quantity := 10, direction := Direction.BUY,
    fill_price := 100, datetime := default, rejected := false, commission := 0 }

/-- BUY fill of 10 `"A"` at 110 with commission 20 (2 per share). -/
def buyTenAt110 : FillEvent :=
  { symbol := "A", exchange := "US_STOCK", quantity := 10, direction := Direction.BUY,
    fill_price := 110, datetime := default, rejected := false, commission := 20 }

/-- C9 witness: two BUY adds — 10 at 100 (no commission) and 10 at 110
(commission 20) — leave quantity 20 and
`avg_cost · quantity = 1000 + (1100 + 20) = 2120`. -/
theorem c9_witness :
    (((runFills usRegistry (initPortfolio 10000) [buyTenAt100, buyTenAt110]).current_holdings
      "A").getD {}).quantity = 20 ∧
    (((runFills usRegistry (initPortfolio 10000) [buyTenAt100, buyTenAt110]).current_holdings
      "A").getD {}).avg_cost *
        ((((runFills usRegistry (initPortfolio 10000)
          [buyTenAt100, buyTenAt110]).current_holdings "A").getD {}).quantity : ℚ) = 2120 := by
  obtain ⟨h1, h2⟩ := (c9_weighted_average_cost usRegistry (mkStock "A" usStockRules "USD") "A"
    rfl 10000 [buyTenAt100, buyTenAt110]).1
    (by intro f hf; fin_cases hf <;>
      exact ⟨rfl, rfl, rfl, by norm_num [buyTenAt100, buyTenAt110]⟩)
  refine ⟨by rw [h1]; rfl, by rw [h2]; norm_num [buyTenAt100, buyTenAt110]⟩
